import Mathlib

/-!
Verification of the telehealth-app signaling/control layer: the LiveKit JWT
token generator (`api/token`: `base64UrlEncode`, `createToken`) and the
recording-session tracker (`api/recording.js`: `startRecording`,
`stopRecording`, `getRecordingStatus`).

Strings crossing the crypto boundary are modelled as byte lists
(`List Nat`, each element an octet < 256), matching Node's `Buffer`
semantics.  The ambient clock (`Date.now()`, `new Date().toISOString()`)
and the external egress service are passed as explicit parameters.
-/

/-- Byte strings: each element is intended to be an octet (< 256). -/
abbrev Bytes := List Nat

/-- All elements are octets. -/
def validBytes (bs : Bytes) : Prop := ∀ b ∈ bs, b < 256

instance (bs : Bytes) : Decidable (validBytes bs) := by
  unfold validBytes; infer_instance

/-- ASCII bytes of a Lean string literal (used only for ASCII literals,
where `Char.toNat` is the UTF-8 octet). -/
def strBytes (s : String) : Bytes := s.toList.map Char.toNat

/-! ### Base64url (from `base64UrlEncode` in the token function:
`Buffer.toString('base64')` followed by `+`→`-`, `/`→`_`, `=`→``) -/

/-- The standard base64 alphabet, sextet to ASCII byte. -/
def b64Char (n : Nat) : Nat :=
  if n < 26 then 65 + n
  else if n < 52 then 97 + (n - 26)
  else if n < 62 then 48 + (n - 52)
  else if n = 62 then 43
  else 47

/-- The chained `.replace(/\+/g,'-').replace(/\//g,'_')` on the base64 text. -/
def urlSafe (b : Nat) : Nat :=
  if b = 43 then 45 else if b = 47 then 95 else b

/-- 6-bit groups of the 3-byte chunks of a byte string (unpadded: stripping
`=` from padded base64 leaves exactly these sextets). -/
def base64Chunks : Bytes → List Nat
  | [] => []
  | [b1] => [b1 / 4, b1 % 4 * 16]
  | [b1, b2] => [b1 / 4, b1 % 4 * 16 + b2 / 16, b2 % 16 * 4]
  | b1 :: b2 :: b3 :: rest =>
      b1 / 4 :: (b1 % 4 * 16 + b2 / 16) :: (b2 % 16 * 4 + b3 / 64) :: b3 % 64 ::
        base64Chunks rest

/-- `base64UrlEncode` from the source: unpadded URL-safe base64, as the
ASCII bytes of the encoded text. -/
def base64UrlEncode (bs : Bytes) : Bytes :=
  (base64Chunks bs).map (fun n => urlSafe (b64Char n))

/-- Inverse of the URL-safe alphabet: ASCII byte back to sextet. -/
def b64CharVal (c : Nat) : Option Nat :=
  if 65 ≤ c ∧ c ≤ 90 then some (c - 65)
  else if 97 ≤ c ∧ c ≤ 122 then some (c - 97 + 26)
  else if 48 ≤ c ∧ c ≤ 57 then some (c - 48 + 52)
  else if c = 45 then some 62
  else if c = 95 then some 63
  else none

/-- Reassemble bytes from sextets (inverse of `base64Chunks`). -/
def sextetsToBytes : List Nat → Option Bytes
  | [] => some []
  | [_] => none
  | [s1, s2] => if s2 % 16 = 0 then some [s1 * 4 + s2 / 16] else none
  | [s1, s2, s3] =>
      if s3 % 4 = 0 then some [s1 * 4 + s2 / 16, s2 % 16 * 16 + s3 / 4] else none
  | s1 :: s2 :: s3 :: s4 :: rest =>
      (sextetsToBytes rest).map
        (fun bs => (s1 * 4 + s2 / 16) :: (s2 % 16 * 16 + s3 / 4) :: (s3 % 4 * 64 + s4) :: bs)

/-- Map each ASCII byte back to its sextet, failing on any non-alphabet byte. -/
def decodeVals : Bytes → Option (List Nat)
  | [] => some []
  | c :: cs =>
    match b64CharVal c, decodeVals cs with
    | some v, some vs => some (v :: vs)
    | _, _ => none

/-- Decode an unpadded URL-safe base64 text (given as ASCII bytes). -/
def base64UrlDecode (cs : Bytes) : Option Bytes :=
  (decodeVals cs).bind sextetsToBytes

/-! ### SHA-256 (`crypto.createHmac('sha256', …)`), FIPS 180-4, over octets,
with 32-bit words as `Nat` reduced mod 2^32 -/

/-- Truncate to a 32-bit word. -/
def w32 (n : Nat) : Nat := n % 4294967296

/-- Rotate a 32-bit word right by `n` bits. -/
def rotr (n x : Nat) : Nat := x / 2 ^ n + x % 2 ^ n * 2 ^ (32 - n)

/-- SHA-256 choose function. -/
def ch (x y z : Nat) : Nat :=
  Nat.xor (Nat.land x y) (Nat.land (Nat.xor x 4294967295) z)

/-- SHA-256 majority function. -/
def maj (x y z : Nat) : Nat :=
  Nat.xor (Nat.xor (Nat.land x y) (Nat.land x z)) (Nat.land y z)

/-- Big sigma 0. -/
def bigSig0 (x : Nat) : Nat := Nat.xor (Nat.xor (rotr 2 x) (rotr 13 x)) (rotr 22 x)

/-- Big sigma 1. -/
def bigSig1 (x : Nat) : Nat := Nat.xor (Nat.xor (rotr 6 x) (rotr 11 x)) (rotr 25 x)

/-- Small sigma 0 (message schedule). -/
def smallSig0 (x : Nat) : Nat := Nat.xor (Nat.xor (rotr 7 x) (rotr 18 x)) (x / 8)

/-- Small sigma 1 (message schedule). -/
def smallSig1 (x : Nat) : Nat := Nat.xor (Nat.xor (rotr 17 x) (rotr 19 x)) (x / 1024)

/-- The 64 SHA-256 round constants. -/
def shaK : List Nat :=
  [1116352408, 1899447441, 3049323471, 3921009573,
   961987163, 1508970993, 2453635748, 2870763221,
   3624381080, 310598401, 607225278, 1426881987,
   1925078388, 2162078206, 2614888103, 3248222580,
   3835390401, 4022224774, 264347078, 604807628,
   770255983, 1249150122, 1555081692, 1996064986,
   2554220882, 2821834349, 2952996808, 3210313671,
   3336571891, 3584528711, 113926993, 338241895,
   666307205, 773529912, 1294757372, 1396182291,
   1695183700, 1986661051, 2177026350, 2456956037,
   2730485921, 2820302411, 3259730800, 3345764771,
   3516065817, 3600352804, 4094571909, 275423344,
   430227734, 506948616, 659060556, 883997877,
   958139571, 1322822218, 1537002063, 1747873779,
   1955562222, 2024104815, 2227730452, 2361852424,
   2428436474, 2756734187, 3204031479, 3329325298]

/-- Eight 32-bit words: both the hash value and the working variables. -/
structure Hash8 where
  a : Nat
  b : Nat
  c : Nat
  d : Nat
  e : Nat
  f : Nat
  g : Nat
  h : Nat
deriving Repr, DecidableEq

/-- SHA-256 initial hash value. -/
def shaH0 : Hash8 :=
  ⟨1779033703, 3144134277, 1013904242, 2773480762,
   1359893119, 2600822924, 528734635, 1541459225⟩

/-- One extension step of the message schedule: append
`σ1(W[t-2]) + W[t-7] + σ0(W[t-15]) + W[t-16]`. -/
def schedStep (ws : List Nat) : List Nat :=
  ws ++ [w32 (smallSig1 (ws.getD (ws.length - 2) 0) + ws.getD (ws.length - 7) 0 +
              smallSig0 (ws.getD (ws.length - 15) 0) + ws.getD (ws.length - 16) 0)]

/-- Iterate the schedule extension `n` times. -/
def extendN : Nat → List Nat → List Nat
  | 0, ws => ws
  | n + 1, ws => extendN n (schedStep ws)

/-- One SHA-256 round, consuming a pair `(K[t], W[t])`. -/
def shaRound (st : Hash8) (kw : Nat × Nat) : Hash8 :=
  let t1 := w32 (st.h + bigSig1 st.e + ch st.e st.f st.g + kw.1 + kw.2)
  let t2 := w32 (bigSig0 st.a + maj st.a st.b st.c)
  ⟨w32 (t1 + t2), st.a, st.b, st.c, w32 (st.d + t1), st.e, st.f, st.g⟩

/-- SHA-256 compression of one 16-word block into the running hash. -/
def compress (hv : Hash8) (block : List Nat) : Hash8 :=
  let st := ((shaK.zip (extendN 48 block)).foldl shaRound hv)
  ⟨w32 (hv.a + st.a), w32 (hv.b + st.b), w32 (hv.c + st.c), w32 (hv.d + st.d),
   w32 (hv.e + st.e), w32 (hv.f + st.f), w32 (hv.g + st.g), w32 (hv.h + st.h)⟩

/-- Big-endian bytes of a 32-bit word. -/
def wordBytes (w : Nat) : Bytes :=
  [w / 16777216 % 256, w / 65536 % 256, w / 256 % 256, w % 256]

/-- Big-endian 8-byte rendering of the message bit length. -/
def len8 (n : Nat) : Bytes :=
  [n / 2 ^ 56 % 256, n / 2 ^ 48 % 256, n / 2 ^ 40 % 256, n / 2 ^ 32 % 256,
   n / 2 ^ 24 % 256, n / 2 ^ 16 % 256, n / 2 ^ 8 % 256, n % 256]

/-- SHA-256 message padding: `0x80`, zeros to 56 mod 64, 8-byte bit length. -/
def padMsg (bs : Bytes) : Bytes :=
  bs ++ 128 :: (List.replicate ((119 - bs.length % 64) % 64) 0 ++ len8 (8 * bs.length))

/-- Split into 64-byte blocks. -/
def chunk64 (l : List Nat) : List (List Nat) :=
  if l = [] then [] else l.take 64 :: chunk64 (l.drop 64)
termination_by l.length
decreasing_by
  simp only [List.length_drop]
  cases l with
  | nil => simp_all
  | cons x xs => simp; omega

/-- Big-endian 32-bit words of a byte string (groups of 4). -/
def bytesToWords : List Nat → List Nat
  | b1 :: b2 :: b3 :: b4 :: rest =>
      (b1 * 16777216 + b2 * 65536 + b3 * 256 + b4) :: bytesToWords rest
  | _ => []

/-- SHA-256 digest (32 bytes) of a byte string. -/
def sha256 (bs : Bytes) : Bytes :=
  let hf := ((chunk64 (padMsg bs)).map bytesToWords).foldl compress shaH0
  wordBytes hf.a ++ wordBytes hf.b ++ wordBytes hf.c ++ wordBytes hf.d ++
  wordBytes hf.e ++ wordBytes hf.f ++ wordBytes hf.g ++ wordBytes hf.h

/-! ### HMAC-SHA256 (`crypto.createHmac('sha256', secret).update(msg)`) -/

/-- RFC 2104 key preparation: hash keys longer than the 64-byte block,
then zero-pad to 64 bytes. -/
def padKey (key : Bytes) : Bytes :=
  let k0 := if key.length > 64 then sha256 key else key
  k0 ++ List.replicate (64 - k0.length) 0

/-- HMAC-SHA256 digest (32 bytes). -/
def hmacSha256 (key msg : Bytes) : Bytes :=
  let k := padKey key
  sha256 (k.map (fun b => Nat.xor b 92) ++ sha256 (k.map (fun b => Nat.xor b 54) ++ msg))

/-! ### JSON serialization (`JSON.stringify` of the fixed header and payload
objects, property order = insertion order) -/

/-- Lowercase hex digit byte. -/
def hexDigit (n : Nat) : Nat := if n < 10 then 48 + n else 87 + n

/-- `JSON.stringify` escaping of one string byte (quote, backslash, and
control characters; multi-byte UTF-8 content passes through unchanged). -/
def escByte (b : Nat) : Bytes :=
  if b = 34 then [92, 34]
  else if b = 92 then [92, 92]
  else if b = 8 then [92, 98]
  else if b = 9 then [92, 116]
  else if b = 10 then [92, 110]
  else if b = 12 then [92, 102]
  else if b = 13 then [92, 114]
  else if b < 32 then [92, 117, 48, 48, hexDigit (b / 16), hexDigit (b % 16)]
  else [b]

/-- `JSON.stringify` escaping of a string value's bytes. -/
def jsonEscape (bs : Bytes) : Bytes := bs.flatMap escByte

/-- Decimal digit bytes of a positive number, most significant first. -/
def natDecR : Nat → Bytes
  | 0 => []
  | n + 1 => natDecR ((n + 1) / 10) ++ [48 + (n + 1) % 10]
decreasing_by omega

/-- `JSON.stringify` rendering of a non-negative integer. -/
def natDec (n : Nat) : Bytes := if n = 0 then [48] else natDecR n

/-- `JSON.stringify` rendering of a boolean. -/
def boolJson (b : Bool) : Bytes := if b then strBytes "true" else strBytes "false"

/-- The `video` room grant of the payload object. -/
structure VideoGrant where
  room : Bytes
  roomJoin : Bool
  canPublish : Bool
  canSubscribe : Bool
  canPublishData : Bool
deriving Repr, DecidableEq

/-- The JWT payload object built by `createToken`. -/
structure ClaimSet where
  exp : Nat
  iss : Bytes
  name : Bytes
  nbf : Nat
  sub : Bytes
  video : VideoGrant
deriving Repr, DecidableEq

/-- `JSON.stringify` of the `video` grant, keys in insertion order. -/
def videoGrantJson (v : VideoGrant) : Bytes :=
  strBytes "\x7b\"room\":\"" ++ jsonEscape v.room ++
  strBytes "\",\"roomJoin\":" ++ boolJson v.roomJoin ++
  strBytes ",\"canPublish\":" ++ boolJson v.canPublish ++
  strBytes ",\"canSubscribe\":" ++ boolJson v.canSubscribe ++
  strBytes ",\"canPublishData\":" ++ boolJson v.canPublishData ++ strBytes "\x7d"

/-- `JSON.stringify` of the payload, keys in insertion order
(`exp`, `iss`, `name`, `nbf`, `sub`, `video`). -/
def claimSetJson (c : ClaimSet) : Bytes :=
  strBytes "\x7b\"exp\":" ++ natDec c.exp ++
  strBytes ",\"iss\":\"" ++ jsonEscape c.iss ++
  strBytes "\",\"name\":\"" ++ jsonEscape c.name ++
  strBytes "\",\"nbf\":" ++ natDec c.nbf ++
  strBytes ",\"sub\":\"" ++ jsonEscape c.sub ++
  strBytes "\",\"video\":" ++ videoGrantJson c.video ++ strBytes "\x7d"

/-! ### `createToken` -/

/-- `JSON.stringify` of the fixed header `\x7balg: 'HS256', typ: 'JWT'\x7d`. -/
def headerJson : Bytes := strBytes "\x7b\"alg\":\"HS256\",\"typ\":\"JWT\"\x7d"

/-- The claim set `createToken` signs for `(identity, room)` at unix time
`now`: `exp = now + 24*60*60`, `iss` = API key, `name = sub = identity`,
`nbf = now`, full-capability grant on `room`. -/
def tokenClaims (identity room issKey : Bytes) (now : Nat) : ClaimSet :=
  ⟨now + 24 * 60 * 60, issKey, identity, now, identity,
   ⟨room, true, true, true, true⟩⟩

/-- `headerEncoded + "." + payloadEncoded`, the HMAC input (46 = `.`). -/
def signingInput (identity room issKey : Bytes) (now : Nat) : Bytes :=
  base64UrlEncode headerJson ++
  46 :: base64UrlEncode (claimSetJson (tokenClaims identity room issKey now))

/-- `createToken`: the three-segment JWT
`headerEncoded.payloadEncoded.signature`. -/
def createToken (identity room issKey secret : Bytes) (now : Nat) : Bytes :=
  signingInput identity room issKey now ++
  46 :: base64UrlEncode (hmacSha256 secret (signingInput identity room issKey now))

/-- Split a byte string on `.` (byte 46). -/
def splitOnDot : Bytes → List Bytes
  | [] => [[]]
  | b :: rest =>
    if b = 46 then [] :: splitOnDot rest
    else match splitOnDot rest with
      | [] => [[b]]
      | s :: ss => (b :: s) :: ss

/-! ### Recording session tracker (`api/recording.js`)

The `activeRecordings` JS `Map` is an association list with unique keys;
every operation returns `(result, map after the call)`.  The external
egress service (`startRoomCompositeEgress` / `stopEgress`) is passed as a
function parameter whose result is `ok` (the awaited value) or `err` (a
thrown error, which the module-level handler converts to a 500
`RecordingServiceError`).  The ambient `new Date().toISOString()` values
are likewise parameters. -/

/-- One entry of `activeRecordings`. -/
structure RecordingInfo where
  egressId : String
  startedBy : String
  startedAt : String
  filepath : String
deriving Repr, DecidableEq

/-- The `activeRecordings` map: room name to session record. -/
abbrev RecMap := List (String × RecordingInfo)

/-- `Map.get` / `Map.has`. -/
def mapLookup : RecMap → String → Option RecordingInfo
  | [], _ => none
  | (k2, v) :: rest, k => if k2 = k then some v else mapLookup rest k

/-- `Map.set` (replace an existing key, else append). -/
def mapSet : RecMap → String → RecordingInfo → RecMap
  | [], k, v => [(k, v)]
  | (k2, v2) :: rest, k, v =>
      if k2 = k then (k, v) :: rest else (k2, v2) :: mapSet rest k v

/-- `Map.delete`. -/
def mapDelete : RecMap → String → RecMap
  | [], _ => []
  | (k2, v2) :: rest, k => if k2 = k then rest else (k2, v2) :: mapDelete rest k

/-- Result of an awaited external-service call: the value, or a thrown
error (caught by the handler and reported as a 500). -/
inductive ExtResult (α : Type) where
  | ok (a : α)
  | err (msg : String)
deriving Repr, DecidableEq

/-- The egress info returned by `startRoomCompositeEgress`. -/
structure EgressInfo where
  egressId : String
deriving Repr, DecidableEq

/-- `new Date().toISOString().replace(/[:.]/g, '-')`: every `:` and `.`
character replaced by `-`. -/
def isoSanitize (iso : String) : String :=
  String.mk (iso.data.map (fun c => if c = ':' ∨ c = '.' then '-' else c))

/-- JS truthiness of an optional string parameter (absent or `""` is falsy). -/
def truthy : Option String → Bool
  | none => false
  | some s => !(s == "")

/-- Outcome of `startRecording`: 409 conflict body, 200 success body, or a
thrown service error (500 at the handler). -/
inductive StartResult where
  | conflict (startedBy egressId : String)
  | ok (egressId filepath : String)
  | svcError (msg : String)
deriving Repr, DecidableEq

/-- `startRecording(room, identity)`: conflict if the room already has a
record, else derive the output path, call the egress service, and on
success insert the new record. -/
def startRecording (ext : String → String → ExtResult EgressInfo)
    (m : RecMap) (room : String) (identity : Option String)
    (nowIso startedAtIso : String) : StartResult × RecMap :=
  match mapLookup m room with
  | some existing => (.conflict existing.startedBy existing.egressId, m)
  | none =>
    let timestamp := isoSanitize nowIso
    let filepath := "recordings/" ++ room ++ "/" ++ timestamp ++ ".ogg"
    match ext room filepath with
    | .err e => (.svcError e, m)
    | .ok info =>
      let startedBy := match identity with
        | some s => if s = "" then "unknown" else s
        | none => "unknown"
      (.ok info.egressId filepath,
       mapSet m room ⟨info.egressId, startedBy, startedAtIso, filepath⟩)

/-- Outcome of `stopRecording`: 404, 200 success body (the filepath is
`recordingInfo?.filepath`), or a thrown service error (500). -/
inductive StopResult where
  | notFound
  | ok (egressId : String) (filepath : Option String)
  | svcError (msg : String)
deriving Repr, DecidableEq

/-- `stopRecording(room, egressId)`: resolve the target egress id from the
room's record when `room` is truthy and present, else from the caller's
`egressId`; 404 when none resolves; call `stopEgress`; on success delete
the room's entry exactly when `room` is truthy. -/
def stopRecording (ext : String → ExtResult Unit) (m : RecMap)
    (room egressId : Option String) : StopResult × RecMap :=
  let rinfo : Option RecordingInfo :=
    match room with
    | some r => if r = "" then none else mapLookup m r
    | none => none
  let target : Option String :=
    match rinfo with
    | some info => some info.egressId
    | none => egressId
  match target with
  | none => (.notFound, m)
  | some tid =>
    if tid = "" then (.notFound, m)
    else match ext tid with
    | .err e => (.svcError e, m)
    | .ok _ =>
      let m2 := match room with
        | some r => if r = "" then m else mapDelete m r
        | none => m
      (.ok tid (rinfo.map (fun i => i.filepath)), m2)

/-- Body of the always-200 `getRecordingStatus` response: the boolean, and
the three spread fields present exactly when a record exists. -/
structure StatusBody where
  isRecording : Bool
  egressId : Option String
  startedBy : Option String
  startedAt : Option String
deriving Repr, DecidableEq

/-- `getRecordingStatus(room)`: pure lookup; the map is returned unchanged. -/
def getRecordingStatus (m : RecMap) (room : String) : StatusBody × RecMap :=
  match mapLookup m room with
  | none => (⟨false, none, none, none⟩, m)
  | some info => (⟨true, some info.egressId, some info.startedBy, some info.startedAt⟩, m)

/-- Membership in the unpadded URL-safe base64 alphabet
(`A-Z`, `a-z`, `0-9`, `-`, `_`), as ASCII byte values. -/
def isB64url (b : Nat) : Bool :=
  (65 ≤ b && b ≤ 90) || (97 ≤ b && b ≤ 122) || (48 ≤ b && b ≤ 57) ||
    b == 45 || b == 95

/-! ## Helper lemmas -/

theorem validBytes_append {a b : Bytes} :
    validBytes (a ++ b) ↔ validBytes a ∧ validBytes b := by
  constructor
  · intro h
    exact ⟨fun x hx => h x (List.mem_append_left _ hx),
           fun x hx => h x (List.mem_append_right _ hx)⟩
  · rintro ⟨h1, h2⟩ x hx
    rcases List.mem_append.mp hx with h | h
    · exact h1 x h
    · exact h2 x h

theorem wordBytes_valid (w : Nat) : validBytes (wordBytes w) := by
  intro b hb
  simp only [wordBytes, List.mem_cons, List.not_mem_nil, or_false] at hb
  rcases hb with h | h | h | h <;> omega

theorem sha256_valid (bs : Bytes) : validBytes (sha256 bs) := by
  unfold sha256
  intro b hb
  simp only [List.append_assoc, List.mem_append] at hb
  rcases hb with h | h | h | h | h | h | h | h <;> exact wordBytes_valid _ b h

theorem hmacSha256_valid (key msg : Bytes) : validBytes (hmacSha256 key msg) :=
  sha256_valid _

theorem sha256_ne_nil (bs : Bytes) : sha256 bs ≠ [] := by
  simp [sha256, wordBytes]

theorem base64Chunks_lt (bs : Bytes) (h : validBytes bs) :
    ∀ s ∈ base64Chunks bs, s < 64 := by
  induction bs using base64Chunks.induct with
  | case1 => simp [base64Chunks]
  | case2 b1 =>
      intro s hs
      simp [base64Chunks] at hs
      have := h b1 (by simp)
      omega
  | case3 b1 b2 =>
      intro s hs
      simp [base64Chunks] at hs
      have h1 := h b1 (by simp)
      have h2 := h b2 (by simp)
      rcases hs with h' | h' | h' <;> omega
  | case4 b1 b2 b3 rest ih =>
      intro s hs
      simp only [base64Chunks, List.mem_cons] at hs
      have h1 := h b1 (by simp)
      have h2 := h b2 (by simp)
      have h3 := h b3 (by simp)
      rcases hs with h' | h' | h' | h' | h' <;> try omega
      exact ih (fun b hb => h b (by simp [hb])) s h'

theorem alphabet_ok : ∀ n < 64, isB64url (urlSafe (b64Char n)) = true := by decide

theorem isB64url_ne_dot {b : Nat} (h : isB64url b = true) : b ≠ 46 := by
  simp [isB64url] at h
  omega

theorem base64UrlEncode_alphabet {bs : Bytes} (h : validBytes bs) :
    ∀ c ∈ base64UrlEncode bs, isB64url c = true := by
  intro c hc
  simp only [base64UrlEncode, List.mem_map] at hc
  obtain ⟨n, hn, rfl⟩ := hc
  exact alphabet_ok n (base64Chunks_lt bs h n hn)

theorem base64UrlEncode_no_dot {bs : Bytes} (h : validBytes bs) :
    46 ∉ base64UrlEncode bs :=
  fun hc => isB64url_ne_dot (base64UrlEncode_alphabet h 46 hc) rfl

theorem base64UrlEncode_ne_nil {bs : Bytes} (h : bs ≠ []) :
    base64UrlEncode bs ≠ [] := by
  match bs with
  | [] => contradiction
  | [b1] => simp [base64UrlEncode, base64Chunks]
  | [b1, b2] => simp [base64UrlEncode, base64Chunks]
  | b1 :: b2 :: b3 :: rest => simp [base64UrlEncode, base64Chunks]

theorem b64CharVal_roundtrip : ∀ n < 64, b64CharVal (urlSafe (b64Char n)) = some n := by
  decide

theorem sextetsToBytes_chunks :
    ∀ bs : Bytes, validBytes bs → sextetsToBytes (base64Chunks bs) = some bs := by
  intro bs h
  induction bs using base64Chunks.induct with
  | case1 => rfl
  | case2 b1 =>
      have h1 := h b1 (by simp)
      simp only [base64Chunks, sextetsToBytes]
      rw [if_pos (by omega)]
      simp only [Option.some.injEq, List.cons.injEq, and_true]
      omega
  | case3 b1 b2 =>
      have h1 := h b1 (by simp)
      have h2 := h b2 (by simp)
      simp only [base64Chunks, sextetsToBytes]
      rw [if_pos (by omega)]
      simp only [Option.some.injEq, List.cons.injEq, and_true]
      constructor <;> omega
  | case4 b1 b2 b3 rest ih =>
      have h1 := h b1 (by simp)
      have h2 := h b2 (by simp)
      have h3 := h b3 (by simp)
      have ih2 := ih (fun b hb => h b (by simp [hb]))
      simp only [base64Chunks, sextetsToBytes, ih2, Option.map_some']
      simp only [Option.some.injEq, List.cons.injEq, and_true]
      refine ⟨by omega, by omega, by omega⟩

theorem decodeVals_alphabet :
    ∀ l : List Nat, (∀ s ∈ l, s < 64) →
      decodeVals (l.map (fun n => urlSafe (b64Char n))) = some l := by
  intro l
  induction l with
  | nil => intro _; rfl
  | cons x xs ih =>
      intro h
      have hx := b64CharVal_roundtrip x (h x (by simp))
      have hxs := ih (fun s hs => h s (by simp [hs]))
      simp [decodeVals, hx, hxs]

theorem base64UrlDecode_encode {bs : Bytes} (h : validBytes bs) :
    base64UrlDecode (base64UrlEncode bs) = some bs := by
  unfold base64UrlDecode base64UrlEncode
  rw [decodeVals_alphabet _ (base64Chunks_lt bs h)]
  simp [sextetsToBytes_chunks bs h]

set_option maxRecDepth 4096 in
theorem escByte_valid_lt : ∀ b < 256, ∀ c ∈ escByte b, c < 256 := by decide

theorem escByte_valid {b : Nat} (h : b < 256) : validBytes (escByte b) :=
  escByte_valid_lt b h

theorem jsonEscape_valid {bs : Bytes} (h : validBytes bs) :
    validBytes (jsonEscape bs) := by
  intro c hc
  simp only [jsonEscape, List.mem_flatMap] at hc
  obtain ⟨b, hb, hcb⟩ := hc
  exact escByte_valid (h b hb) c hcb

theorem natDecR_valid : ∀ n : Nat, validBytes (natDecR n) := by
  intro n
  induction n using natDecR.induct with
  | case1 => intro b hb; simp [natDecR] at hb
  | case2 n ih =>
      intro b hb
      simp only [natDecR, List.mem_append, List.mem_cons] at hb
      rcases hb with hb | hb
      · exact ih b hb
      · simp at hb; omega

theorem natDec_valid (n : Nat) : validBytes (natDec n) := by
  unfold natDec
  split
  · intro b hb; simp at hb; omega
  · exact natDecR_valid n

theorem boolJson_valid (b : Bool) : validBytes (boolJson b) := by
  cases b <;> decide

theorem claimSetJson_valid {c : ClaimSet} (h1 : validBytes c.iss)
    (h2 : validBytes c.name) (h3 : validBytes c.sub)
    (h4 : validBytes c.video.room) : validBytes (claimSetJson c) := by
  unfold claimSetJson videoGrantJson
  simp only [validBytes_append]
  repeat' apply And.intro
  all_goals first
    | exact natDec_valid _
    | exact boolJson_valid _
    | exact jsonEscape_valid h1
    | exact jsonEscape_valid h2
    | exact jsonEscape_valid h3
    | exact jsonEscape_valid h4
    | decide

theorem headerJson_valid : validBytes headerJson := by decide

theorem claimSetJson_ne_nil (c : ClaimSet) : claimSetJson c ≠ [] := by
  unfold claimSetJson
  simp [strBytes]

theorem splitOnDot_no_dot {a : Bytes} (h : 46 ∉ a) : splitOnDot a = [a] := by
  induction a with
  | nil => rfl
  | cons x xs ih =>
      have hx : ¬ x = 46 := fun he => h (by simp [he])
      have hxs : 46 ∉ xs := fun he => h (by simp [he])
      simp only [splitOnDot, if_neg hx, ih hxs]

theorem splitOnDot_append {a : Bytes} (b : Bytes) (h : 46 ∉ a) :
    splitOnDot (a ++ 46 :: b) = a :: splitOnDot b := by
  induction a with
  | nil => simp [splitOnDot]
  | cons x xs ih =>
      have hx : ¬ x = 46 := fun he => h (by simp [he])
      have hxs : 46 ∉ xs := fun he => h (by simp [he])
      have h2 := ih hxs
      simp only [List.cons_append, splitOnDot, if_neg hx]
      rw [show xs.append (46 :: b) = xs ++ 46 :: b from rfl, h2]

theorem splitOnDot_createToken {identity room issKey : Bytes}
    (secret : Bytes) (now : Nat) (hi : validBytes identity)
    (hr : validBytes room) (hk : validBytes issKey) :
    splitOnDot (createToken identity room issKey secret now) =
      [base64UrlEncode headerJson,
       base64UrlEncode (claimSetJson (tokenClaims identity room issKey now)),
       base64UrlEncode (hmacSha256 secret (signingInput identity room issKey now))] := by
  have hcv : validBytes (claimSetJson (tokenClaims identity room issKey now)) :=
    claimSetJson_valid hk hi hi hr
  have hh := base64UrlEncode_no_dot headerJson_valid
  have hp := base64UrlEncode_no_dot hcv
  have hs := base64UrlEncode_no_dot (hmacSha256_valid secret (signingInput identity room issKey now))
  have hsi : signingInput identity room issKey now =
      base64UrlEncode headerJson ++
        46 :: base64UrlEncode (claimSetJson (tokenClaims identity room issKey now)) := rfl
  unfold createToken
  nth_rewrite 1 [hsi]
  rw [List.append_assoc, List.cons_append]
  rw [splitOnDot_append _ hh, splitOnDot_append _ hp, splitOnDot_no_dot hs]

theorem count_dot_encode {bs : Bytes} (h : validBytes bs) :
    (base64UrlEncode bs).count 46 = 0 :=
  List.count_eq_zero.mpr (base64UrlEncode_no_dot h)

theorem padKey_append_zero {k : Bytes} (h : k.length < 64) :
    padKey (k ++ [0]) = padKey k := by
  unfold padKey
  rw [if_neg (by simp; omega), if_neg (by omega)]
  rw [List.append_assoc]
  congr 1
  simp only [List.singleton_append, List.length_append, List.length_singleton]
  rw [← List.replicate_succ]
  congr 1
  omega

theorem hmac_congr {k1 k2 m : Bytes} (h : padKey k1 = padKey k2) :
    hmacSha256 k1 m = hmacSha256 k2 m := by
  unfold hmacSha256
  rw [h]

theorem mapLookup_mapSet_self (m : RecMap) (k : String) (v : RecordingInfo) :
    mapLookup (mapSet m k v) k = some v := by
  induction m with
  | nil => simp [mapSet, mapLookup]
  | cons p rest ih =>
      by_cases hk : p.1 = k
      · simp [mapSet, hk, mapLookup]
      · simp [mapSet, hk, mapLookup, ih]

theorem mapDelete_mapSet {m : RecMap} {k : String} (h : mapLookup m k = none)
    (v : RecordingInfo) : mapDelete (mapSet m k v) k = m := by
  induction m with
  | nil => simp [mapSet, mapDelete]
  | cons p rest ih =>
      by_cases hk : p.1 = k
      · simp [mapLookup, hk] at h
      · simp only [mapLookup, if_neg hk] at h
        simp [mapSet, hk, mapDelete, ih h]

theorem mapDelete_absent {m : RecMap} {k : String} (h : mapLookup m k = none) :
    mapDelete m k = m := by
  induction m with
  | nil => rfl
  | cons p rest ih =>
      by_cases hk : p.1 = k
      · simp [mapLookup, hk] at h
      · simp only [mapLookup, if_neg hk] at h
        simp [mapDelete, hk, ih h]

theorem mapLookup_not_mem {m : RecMap} {k : String}
    (h : k ∉ m.map Prod.fst) : mapLookup m k = none := by
  induction m with
  | nil => rfl
  | cons p rest ih =>
      simp only [List.map_cons, List.mem_cons] at h
      push_neg at h
      have hne : ¬ p.1 = k := fun he => h.1 he.symm
      simp only [mapLookup, if_neg hne, ih h.2]

theorem mapLookup_mapDelete_nodup {m : RecMap} {k : String}
    (h : (m.map Prod.fst).Nodup) : mapLookup (mapDelete m k) k = none := by
  induction m with
  | nil => rfl
  | cons p rest ih =>
      simp only [List.map_cons, List.nodup_cons] at h
      by_cases hk : p.1 = k
      · simp only [mapDelete, if_pos hk]
        exact mapLookup_not_mem (hk ▸ h.1)
      · simp only [mapDelete, if_neg hk, mapLookup, if_neg hk]
        exact ih h.2

theorem hmacSha256_ne_nil (key msg : Bytes) : hmacSha256 key msg ≠ [] :=
  sha256_ne_nil _

/-! ## Claim theorems -/

/-- C2 (confirmed): for every identity, room, issuer key, secret and
issuance time `now`, the first segment of the credential decodes to the
header `\x7b"alg":"HS256","typ":"JWT"\x7d` (HS256 = HMAC-SHA256), the second
segment decodes to the serialized claim set, and that claim set satisfies
`exp - nbf = 86400`, `nbf = now`, and a room grant naming exactly the
input room with `roomJoin`, `canPublish`, `canSubscribe`,
`canPublishData` all true. -/
theorem token_header_and_claims (identity room issKey secret : Bytes) (now : Nat)
    (hi : validBytes identity) (hr : validBytes room) (hk : validBytes issKey) :
    base64UrlDecode ((splitOnDot (createToken identity room issKey secret now)).getD 0 []) =
        some headerJson ∧
    base64UrlDecode ((splitOnDot (createToken identity room issKey secret now)).getD 1 []) =
        some (claimSetJson (tokenClaims identity room issKey now)) ∧
    (tokenClaims identity room issKey now).exp -
        (tokenClaims identity room issKey now).nbf = 86400 ∧
    (tokenClaims identity room issKey now).nbf = now ∧
    (tokenClaims identity room issKey now).video = ⟨room, true, true, true, true⟩ := by
  rw [splitOnDot_createToken secret now hi hr hk]
  refine ⟨base64UrlDecode_encode headerJson_valid,
    base64UrlDecode_encode (claimSetJson_valid hk hi hi hr), ?_, rfl, rfl⟩
  simp [tokenClaims]

theorem token_header_and_claims_witness :
    validBytes [97] ∧ validBytes [98] ∧ validBytes [99] ∧
    (base64UrlDecode ((splitOnDot (createToken [97] [98] [99] [100] 5)).getD 0 []) =
        some headerJson ∧
     base64UrlDecode ((splitOnDot (createToken [97] [98] [99] [100] 5)).getD 1 []) =
        some (claimSetJson (tokenClaims [97] [98] [99] 5)) ∧
     (tokenClaims [97] [98] [99] 5).exp - (tokenClaims [97] [98] [99] 5).nbf = 86400 ∧
     (tokenClaims [97] [98] [99] 5).nbf = 5 ∧
     (tokenClaims [97] [98] [99] 5).video = ⟨[98], true, true, true, true⟩) :=
  ⟨by decide, by decide, by decide,
   token_header_and_claims [97] [98] [99] [100] 5 (by decide) (by decide) (by decide)⟩

/-- C3 (confirmed): for every non-empty identity and room (and any issuer
key, secret and time), the credential contains exactly two `.` (byte 46)
characters, splits into exactly three non-empty segments, and every byte
of every segment belongs to the unpadded URL-safe base64 alphabet. -/
theorem token_three_segments (identity room issKey secret : Bytes) (now : Nat)
    (hne1 : identity ≠ []) (hne2 : room ≠ [])
    (hi : validBytes identity) (hr : validBytes room) (hk : validBytes issKey) :
    (createToken identity room issKey secret now).count 46 = 2 ∧
    (splitOnDot (createToken identity room issKey secret now)).length = 3 ∧
    ∀ seg ∈ splitOnDot (createToken identity room issKey secret now),
      seg ≠ [] ∧ ∀ c ∈ seg, isB64url c = true := by
  have hcv : validBytes (claimSetJson (tokenClaims identity room issKey now)) :=
    claimSetJson_valid hk hi hi hr
  have hsplit := @splitOnDot_createToken identity room issKey secret now hi hr hk
  have hmv := hmacSha256_valid secret (signingInput identity room issKey now)
  refine ⟨?_, ?_, ?_⟩
  · have hsig : ∀ s msg : Bytes, (base64UrlEncode (hmacSha256 s msg)).count 46 = 0 :=
      fun s msg => count_dot_encode (hmacSha256_valid s msg)
    unfold createToken signingInput
    simp [List.count_append, List.count_cons, count_dot_encode headerJson_valid,
      count_dot_encode hcv, hsig]
  · rw [hsplit]
    rfl
  · rw [hsplit]
    intro seg hseg
    simp only [List.mem_cons, List.not_mem_nil, or_false] at hseg
    rcases hseg with rfl | rfl | rfl
    · exact ⟨base64UrlEncode_ne_nil (by decide), base64UrlEncode_alphabet headerJson_valid⟩
    · exact ⟨base64UrlEncode_ne_nil (claimSetJson_ne_nil _), base64UrlEncode_alphabet hcv⟩
    · exact ⟨base64UrlEncode_ne_nil (hmacSha256_ne_nil _ _), base64UrlEncode_alphabet hmv⟩

theorem token_three_segments_witness :
    ([97] : Bytes) ≠ [] ∧ ([98] : Bytes) ≠ [] ∧
    validBytes [97] ∧ validBytes [98] ∧ validBytes [99] ∧
    ((createToken [97] [98] [99] [100] 5).count 46 = 2 ∧
     (splitOnDot (createToken [97] [98] [99] [100] 5)).length = 3 ∧
     ∀ seg ∈ splitOnDot (createToken [97] [98] [99] [100] 5),
       seg ≠ [] ∧ ∀ c ∈ seg, isB64url c = true) :=
  ⟨by decide, by decide, by decide, by decide, by decide,
   token_three_segments [97] [98] [99] [100] 5 (by decide) (by decide)
     (by decide) (by decide) (by decide)⟩

/-- C9 (confirmed): `createToken` is a pure function of its inputs — two
invocations with identical identity, room, issuer key, secret and `now`
produce identical credentials. -/
theorem createToken_deterministic (i1 r1 k1 s1 : Bytes) (n1 : Nat)
    (i2 r2 k2 s2 : Bytes) (n2 : Nat) (h1 : i1 = i2) (h2 : r1 = r2)
    (h3 : k1 = k2) (h4 : s1 = s2) (h5 : n1 = n2) :
    createToken i1 r1 k1 s1 n1 = createToken i2 r2 k2 s2 n2 := by
  subst h1 h2 h3 h4 h5
  rfl

theorem createToken_deterministic_witness :
    ([97] : Bytes) = [97] ∧
    createToken [97] [98] [99] [100] 5 = createToken [97] [98] [99] [100] 5 :=
  ⟨rfl, createToken_deterministic [97] [98] [99] [100] 5 [97] [98] [99] [100] 5
    rfl rfl rfl rfl rfl⟩

/-- C1 counterexample: the claim's second half ("for every secret different
from the signing secret, recomputing the HMAC over the first two segments
with that other secret does not reproduce the third segment") is false.
HMAC-SHA256 zero-pads keys shorter than its 64-byte block, so the distinct
secret `[115, 0]` (the signing secret `[115]` with a trailing zero byte)
reproduces the third segment of the credential issued with secret `[115]`
exactly. -/
theorem token_signature_other_secret_cex :
    ([115, 0] : Bytes) ≠ [115] ∧
    base64UrlEncode (hmacSha256 [115, 0] (signingInput [97] [98] [99] 0)) =
      (splitOnDot (createToken [97] [98] [99] [115] 0)).getD 2 [] := by
  constructor
  · decide
  · rw [splitOnDot_createToken [115] 0 (by decide) (by decide) (by decide)]
    exact congrArg base64UrlEncode (hmac_congr (by decide))

/-- C1 amended (proved): the third dot-separated segment of the credential
equals the unpadded URL-safe base64 encoding of the HMAC-SHA256 digest,
keyed by the signing secret, of the first segment, a `.`, and the second
segment (signature round-trip).  The "no other secret ever matches" half
is weakened as the counterexample forces: a different secret may reproduce
the signature — appending a zero byte to any secret shorter than the
64-byte HMAC block yields a distinct secret whose signature is identical. -/
theorem token_signature_roundtrip (identity room issKey secret : Bytes) (now : Nat)
    (hi : validBytes identity) (hr : validBytes room) (hk : validBytes issKey) :
    ((splitOnDot (createToken identity room issKey secret now)).getD 2 [] =
      base64UrlEncode (hmacSha256 secret
        ((splitOnDot (createToken identity room issKey secret now)).getD 0 [] ++
          46 :: (splitOnDot (createToken identity room issKey secret now)).getD 1 []))) ∧
    (secret.length < 64 →
      (splitOnDot (createToken identity room issKey (secret ++ [0]) now)).getD 2 [] =
        (splitOnDot (createToken identity room issKey secret now)).getD 2 []) := by
  have h1 := @splitOnDot_createToken identity room issKey secret now hi hr hk
  constructor
  · rw [h1]
    rfl
  · intro hlen
    rw [h1, splitOnDot_createToken (secret ++ [0]) now hi hr hk]
    exact congrArg base64UrlEncode (hmac_congr (padKey_append_zero hlen))

theorem token_signature_roundtrip_witness :
    validBytes [97] ∧ validBytes [98] ∧ validBytes [99] ∧
    (((splitOnDot (createToken [97] [98] [99] [115] 0)).getD 2 [] =
       base64UrlEncode (hmacSha256 [115]
         ((splitOnDot (createToken [97] [98] [99] [115] 0)).getD 0 [] ++
           46 :: (splitOnDot (createToken [97] [98] [99] [115] 0)).getD 1 []))) ∧
     (([115] : Bytes).length < 64 →
       (splitOnDot (createToken [97] [98] [99] ([115] ++ [0]) 0)).getD 2 [] =
         (splitOnDot (createToken [97] [98] [99] [115] 0)).getD 2 [])) :=
  ⟨by decide, by decide, by decide,
   token_signature_roundtrip [97] [98] [99] [115] 0 (by decide) (by decide) (by decide)⟩

theorem start_ok {ext : String → String → ExtResult EgressInfo} {m : RecMap}
    {room : String} {identity : Option String} {iso1 iso2 : String}
    {einfo : EgressInfo} (h0 : mapLookup m room = none)
    (hok : ext room ("recordings/" ++ room ++ "/" ++ isoSanitize iso1 ++ ".ogg") =
      .ok einfo) :
    ∃ v : RecordingInfo, v.egressId = einfo.egressId ∧
      v.filepath = "recordings/" ++ room ++ "/" ++ isoSanitize iso1 ++ ".ogg" ∧
      v.startedAt = iso2 ∧
      startRecording ext m room identity iso1 iso2 =
        (.ok einfo.egressId ("recordings/" ++ room ++ "/" ++ isoSanitize iso1 ++ ".ogg"),
         mapSet m room v) :=
  ⟨⟨einfo.egressId,
    match identity with
    | some s => if s = "" then "unknown" else s
    | none => "unknown", iso2,
    "recordings/" ++ room ++ "/" ++ isoSanitize iso1 ++ ".ogg"⟩,
   rfl, rfl, rfl, by simp [startRecording, h0, hok]⟩

/-- C4 (confirmed): when room `r` has an active record, `start` returns the
409 Conflict carrying the existing record's egress id and starter identity,
changes nothing (the map, hence the tracked session id, is identical before
and after), makes no use of the external service (the outcome is the same
for every external-service behaviour, so no new session is created); and
`start("room-A")` twice with no intervening stop yields Conflict on the
second call with the tracked session id unchanged. -/
theorem start_conflict (ext : String → String → ExtResult EgressInfo)
    (m : RecMap) (room : String) (identity : Option String)
    (iso1 iso2 : String) (info : RecordingInfo)
    (h : mapLookup m room = some info) :
    startRecording ext m room identity iso1 iso2 =
      (.conflict info.startedBy info.egressId, m) ∧
    mapLookup (startRecording ext m room identity iso1 iso2).2 room = some info ∧
    (∀ ext2 : String → String → ExtResult EgressInfo,
      startRecording ext2 m room identity iso1 iso2 =
        startRecording ext m room identity iso1 iso2) ∧
    (∀ (ext2 : String → String → ExtResult EgressInfo) (m0 : RecMap)
       (i1 i2 : Option String) (a b c d : String) (einfo : EgressInfo),
      mapLookup m0 "room-A" = none →
      (∀ fp, ext2 "room-A" fp = .ok einfo) →
      (∃ sb, (startRecording ext2 (startRecording ext2 m0 "room-A" i1 a b).2
                "room-A" i2 c d).1 = .conflict sb einfo.egressId) ∧
      mapLookup (startRecording ext2 (startRecording ext2 m0 "room-A" i1 a b).2
        "room-A" i2 c d).2 "room-A" =
      mapLookup (startRecording ext2 m0 "room-A" i1 a b).2 "room-A") := by
  refine ⟨?_, ?_, ?_, ?_⟩
  · simp [startRecording, h]
  · simp [startRecording, h]
  · intro ext2
    simp [startRecording, h]
  · intro ext2 m0 i1 i2 a b c d einfo h0 hok
    obtain ⟨v, hv1, hv2, hv3, heq⟩ := start_ok h0 (hok _)
    rw [heq]
    have h2 := mapLookup_mapSet_self m0 "room-A" v
    constructor
    · exact ⟨v.startedBy, by simp [startRecording, h2, hv1]⟩
    · simp [startRecording, h2]

theorem start_conflict_witness :
    mapLookup [("room-A", ⟨"EG1", "alice", "t0", "p0"⟩)] "room-A" =
      some ⟨"EG1", "alice", "t0", "p0"⟩ ∧
    startRecording (fun _ _ => .ok ⟨"EG2"⟩)
        [("room-A", ⟨"EG1", "alice", "t0", "p0"⟩)]
        "room-A" (some "bob") "T1" "T2" =
      (.conflict "alice" "EG1", [("room-A", ⟨"EG1", "alice", "t0", "p0"⟩)]) :=
  ⟨rfl, (start_conflict (fun _ _ => .ok ⟨"EG2"⟩)
    [("room-A", ⟨"EG1", "alice", "t0", "p0"⟩)] "room-A" (some "bob") "T1" "T2"
    ⟨"EG1", "alice", "t0", "p0"⟩ rfl).1⟩

/-- C5 (confirmed): `stop` resolution and removal.  (a) When `room` is
supplied (truthy) and has an active record, the egress id and output path
used are the record's — the caller-supplied `egressId` plays no role (the
conclusion holds for every `egressId`) — and on success the room's record
is removed.  (b) When only `egressId` is supplied, it is used directly,
the reported output path is absent, and no record is removed.  (c) When
`room` is supplied but has no record, the caller-supplied `egressId` is
used with no output path and the map is unchanged. -/
theorem stop_resolution (ext : String → ExtResult Unit) (m : RecMap)
    (room egressId : Option String) :
    (∀ r info, room = some r → r ≠ "" → mapLookup m r = some info →
       info.egressId ≠ "" → ext info.egressId = .ok () →
       stopRecording ext m room egressId =
         (.ok info.egressId (some info.filepath), mapDelete m r)) ∧
    (∀ e, room = none → egressId = some e → e ≠ "" → ext e = .ok () →
       stopRecording ext m room egressId = (.ok e none, m)) ∧
    (∀ r e, room = some r → r ≠ "" → mapLookup m r = none →
       egressId = some e → e ≠ "" → ext e = .ok () →
       stopRecording ext m room egressId = (.ok e none, m)) := by
  refine ⟨?_, ?_, ?_⟩
  · intro r info hro hr hl hne hok
    subst hro
    simp [stopRecording, hr, hl, hne, hok]
  · intro e hro hegr hne hok
    subst hro hegr
    simp [stopRecording, hne, hok]
  · intro r e hro hr hl hegr hne hok
    subst hro hegr
    simp [stopRecording, hr, hl, hne, hok, mapDelete_absent hl]

theorem stop_resolution_witness :
    (some "room-A" : Option String) = some "room-A" ∧ "room-A" ≠ "" ∧
    mapLookup [("room-A", ⟨"EG1", "alice", "t0", "fp1"⟩)] "room-A" =
      some ⟨"EG1", "alice", "t0", "fp1"⟩ ∧
    ("EG1" : String) ≠ "" ∧
    (fun _ : String => ExtResult.ok ()) "EG1" = .ok () ∧
    stopRecording (fun _ => .ok ()) [("room-A", ⟨"EG1", "alice", "t0", "fp1"⟩)]
        (some "room-A") (some "EGX") =
      (.ok "EG1" (some "fp1"),
       mapDelete [("room-A", ⟨"EG1", "alice", "t0", "fp1"⟩)] "room-A") :=
  ⟨rfl, by decide, rfl, by decide, rfl,
   (stop_resolution (fun _ => .ok ()) [("room-A", ⟨"EG1", "alice", "t0", "fp1"⟩)]
     (some "room-A") (some "EGX")).1 "room-A" ⟨"EG1", "alice", "t0", "fp1"⟩
     rfl (by decide) rfl (by decide) rfl⟩

/-- C6 (confirmed): atomicity with respect to external-service failure.
If the egress call made by `start` fails, no record is inserted and the
map is returned unchanged with the thrown error surfaced (the handler
reports it as a 500 `RecordingServiceError`); if the call made by `stop`
fails — whether the session id was resolved from the room's record or
supplied by the caller — the map (hence the resolved room's record) is
left intact and the error is surfaced. -/
theorem service_failure_atomic (m : RecMap) (e : String) :
    (∀ (ext : String → String → ExtResult EgressInfo) room identity iso1 iso2,
       mapLookup m room = none →
       ext room ("recordings/" ++ room ++ "/" ++ isoSanitize iso1 ++ ".ogg") = .err e →
       startRecording ext m room identity iso1 iso2 = (.svcError e, m)) ∧
    (∀ (ext : String → ExtResult Unit) r info egressId,
       r ≠ "" → mapLookup m r = some info → info.egressId ≠ "" →
       ext info.egressId = .err e →
       stopRecording ext m (some r) egressId = (.svcError e, m)) ∧
    (∀ (ext : String → ExtResult Unit) eg,
       eg ≠ "" → ext eg = .err e →
       stopRecording ext m none (some eg) = (.svcError e, m)) := by
  refine ⟨?_, ?_, ?_⟩
  · intro ext room identity iso1 iso2 h0 herr
    simp [startRecording, h0, herr]
  · intro ext r info egressId hr hl hne herr
    simp [stopRecording, hr, hl, hne, herr]
  · intro ext eg hne herr
    simp [stopRecording, hne, herr]

theorem service_failure_atomic_witness :
    mapLookup ([] : RecMap) "room-A" = none ∧
    (fun (_ : String) (_ : String) => (ExtResult.err "down" : ExtResult EgressInfo)) "room-A"
      ("recordings/" ++ "room-A" ++ "/" ++ isoSanitize "T1" ++ ".ogg") = .err "down" ∧
    startRecording (fun _ _ => .err "down") [] "room-A" none "T1" "T2" =
      (.svcError "down", []) :=
  ⟨rfl, rfl,
   (service_failure_atomic [] "down").1 (fun _ _ => .err "down") "room-A" none
     "T1" "T2" rfl rfl⟩

/-- C7 (confirmed): the per-room two-state machine.  (1) Idle (no record)
with a successful `start` transitions to Recording (a record exists) with
the 200 body; (2) `start` while Recording is a self-loop reporting
Conflict with the map unchanged; (3) Recording with a successful
`stop(room)` transitions to Idle (assuming the map's JS-`Map` key
uniqueness); (4) `stop` in Idle with no resolvable session id (no record,
no caller egress id) reports NotFound with the map unchanged; (5) a
successful `start("room-A")` followed by `stop("room-A")` returns the 200
stop body and leaves the room Idle: `status("room-A")` then reports
`isRecording: false`. -/
theorem recording_state_machine :
    (∀ (ext : String → String → ExtResult EgressInfo) (m : RecMap)
       (room : String) (identity : Option String) (iso1 iso2 : String)
       (einfo : EgressInfo),
       mapLookup m room = none →
       ext room ("recordings/" ++ room ++ "/" ++ isoSanitize iso1 ++ ".ogg") = .ok einfo →
       (startRecording ext m room identity iso1 iso2).1 =
         .ok einfo.egressId ("recordings/" ++ room ++ "/" ++ isoSanitize iso1 ++ ".ogg") ∧
       (mapLookup (startRecording ext m room identity iso1 iso2).2 room).isSome = true) ∧
    (∀ (ext : String → String → ExtResult EgressInfo) (m : RecMap)
       (room : String) (identity : Option String) (iso1 iso2 : String)
       (info : RecordingInfo),
       mapLookup m room = some info →
       startRecording ext m room identity iso1 iso2 =
         (.conflict info.startedBy info.egressId, m)) ∧
    (∀ (ext : String → ExtResult Unit) (m : RecMap) (r : String)
       (egressId : Option String) (info : RecordingInfo),
       (m.map Prod.fst).Nodup → r ≠ "" → mapLookup m r = some info →
       info.egressId ≠ "" → ext info.egressId = .ok () →
       (stopRecording ext m (some r) egressId).1 =
         .ok info.egressId (some info.filepath) ∧
       mapLookup (stopRecording ext m (some r) egressId).2 r = none) ∧
    (∀ (ext : String → ExtResult Unit) (m : RecMap) (r : String),
       r ≠ "" → mapLookup m r = none →
       stopRecording ext m (some r) none = (.notFound, m)) ∧
    (∀ (ext1 : String → String → ExtResult EgressInfo)
       (ext2 : String → ExtResult Unit) (m : RecMap)
       (identity : Option String) (iso1 iso2 : String) (einfo : EgressInfo),
       mapLookup m "room-A" = none →
       (∀ fp, ext1 "room-A" fp = .ok einfo) →
       einfo.egressId ≠ "" →
       (∀ t, ext2 t = .ok ()) →
       (stopRecording ext2 (startRecording ext1 m "room-A" identity iso1 iso2).2
          (some "room-A") none).1 = .ok einfo.egressId
            (some ("recordings/" ++ "room-A" ++ "/" ++ isoSanitize iso1 ++ ".ogg")) ∧
       ((getRecordingStatus
          (stopRecording ext2 (startRecording ext1 m "room-A" identity iso1 iso2).2
            (some "room-A") none).2 "room-A").1).isRecording = false) := by
  refine ⟨?_, ?_, ?_, ?_, ?_⟩
  · intro ext m room identity iso1 iso2 einfo h0 hok
    obtain ⟨v, hv1, hv2, hv3, heq⟩ := start_ok h0 hok
    rw [heq]
    simp [mapLookup_mapSet_self]
  · intro ext m room identity iso1 iso2 info h
    simp [startRecording, h]
  · intro ext m r egressId info hnd hr hl hne hok
    have hdel := @mapLookup_mapDelete_nodup m r hnd
    simp [stopRecording, hr, hl, hne, hok, hdel]
  · intro ext m r hr h0
    simp [stopRecording, hr, h0]
  · intro ext1 ext2 m identity iso1 iso2 einfo h0 hok hne hok2
    obtain ⟨v, hv1, hv2, hv3, heq⟩ := start_ok h0 (hok _)
    rw [heq]
    have h2 := mapLookup_mapSet_self m "room-A" v
    have h3 := mapDelete_mapSet h0 v
    have hvne : v.egressId ≠ "" := by rw [hv1]; exact hne
    constructor
    · simp [stopRecording, h2, hvne, hne, hok2, hv1, hv2]
    · simp [stopRecording, h2, hvne, hne, hok2, h3, getRecordingStatus, h0]

theorem recording_state_machine_witness :
    mapLookup ([] : RecMap) "room-A" = none ∧
    (∀ fp, (fun (_ : String) (_ : String) => ExtResult.ok (⟨"EG7"⟩ : EgressInfo))
      "room-A" fp = .ok ⟨"EG7"⟩) ∧
    (("EG7" : String) ≠ "") ∧
    (∀ t, (fun _ : String => ExtResult.ok ()) t = .ok ()) ∧
    ((stopRecording (fun _ => .ok ())
        (startRecording (fun _ _ => .ok ⟨"EG7"⟩) [] "room-A" (some "bob") "T1" "T2").2
        (some "room-A") none).1 = .ok "EG7"
          (some ("recordings/" ++ "room-A" ++ "/" ++ isoSanitize "T1" ++ ".ogg")) ∧
     ((getRecordingStatus
        (stopRecording (fun _ => .ok ())
          (startRecording (fun _ _ => .ok ⟨"EG7"⟩) [] "room-A" (some "bob") "T1" "T2").2
          (some "room-A") none).2 "room-A").1).isRecording = false) :=
  ⟨rfl, fun _ => rfl, by decide, fun _ => rfl,
   (recording_state_machine).2.2.2.2 (fun _ _ => .ok ⟨"EG7"⟩) (fun _ => .ok ())
     [] (some "bob") "T1" "T2" ⟨"EG7"⟩ rfl (fun _ => rfl) (by decide) (fun _ => rfl)⟩

/-- C8 (confirmed): `status` is a pure lookup — the map is returned
unchanged for every map and room.  With no record it returns only
`isRecording: false` (all three optional fields absent); with a record it
returns `isRecording: true` together with the stored egress id, startedBy
and startedAt; and after a successful `start`, the egress id it reports
equals the one in the body `start` returned. -/
theorem status_pure (m : RecMap) (room : String) :
    (getRecordingStatus m room).2 = m ∧
    (mapLookup m room = none →
       (getRecordingStatus m room).1 = ⟨false, none, none, none⟩) ∧
    (∀ info, mapLookup m room = some info →
       (getRecordingStatus m room).1 =
         ⟨true, some info.egressId, some info.startedBy, some info.startedAt⟩) ∧
    (∀ (ext : String → String → ExtResult EgressInfo)
       (identity : Option String) (iso1 iso2 : String) (einfo : EgressInfo),
       mapLookup m room = none →
       ext room ("recordings/" ++ room ++ "/" ++ isoSanitize iso1 ++ ".ogg") = .ok einfo →
       (startRecording ext m room identity iso1 iso2).1 =
         .ok einfo.egressId ("recordings/" ++ room ++ "/" ++ isoSanitize iso1 ++ ".ogg") ∧
       ((getRecordingStatus (startRecording ext m room identity iso1 iso2).2 room).1).isRecording
          = true ∧
       ((getRecordingStatus (startRecording ext m room identity iso1 iso2).2 room).1).egressId
          = some einfo.egressId) := by
  refine ⟨?_, ?_, ?_, ?_⟩
  · cases h : mapLookup m room <;> simp [getRecordingStatus, h]
  · intro h
    simp [getRecordingStatus, h]
  · intro info h
    simp [getRecordingStatus, h]
  · intro ext identity iso1 iso2 einfo h0 hok
    obtain ⟨v, hv1, hv2, hv3, heq⟩ := start_ok h0 hok
    rw [heq]
    simp [getRecordingStatus, mapLookup_mapSet_self, hv1]

theorem status_pure_witness :
    mapLookup ([] : RecMap) "room-A" = none ∧
    (getRecordingStatus ([] : RecMap) "room-A").1 = ⟨false, none, none, none⟩ :=
  ⟨rfl, (status_pure [] "room-A").2.1 rfl⟩

/-- C10 (confirmed): for every successful `start`, the output path is
exactly `"recordings/" ++ room ++ "/" ++ s ++ ".ogg"`, where `s` is the
ambient ISO-8601 clock string with every `:` and `.` replaced by `-`; and
the room name is interpolated with no sanitization: whenever the clock
string contains no `/`, the number of `/` characters in the derived path
is exactly `2 + ` the number of `/` characters in the caller-supplied
room string, so a room name containing `/` adds directory segments. -/
theorem start_filepath (ext : String → String → ExtResult EgressInfo)
    (m : RecMap) (room : String) (identity : Option String)
    (iso1 iso2 : String) (einfo : EgressInfo)
    (h0 : mapLookup m room = none)
    (hok : ext room ("recordings/" ++ room ++ "/" ++ isoSanitize iso1 ++ ".ogg") =
      .ok einfo) :
    (startRecording ext m room identity iso1 iso2).1 =
      .ok einfo.egressId ("recordings/" ++ room ++ "/" ++ isoSanitize iso1 ++ ".ogg") ∧
    (('/' : Char) ∉ iso1.data →
      ("recordings/" ++ room ++ "/" ++ isoSanitize iso1 ++ ".ogg").data.count '/' =
        2 + room.data.count '/') := by
  constructor
  · obtain ⟨v, hv1, hv2, hv3, heq⟩ := start_ok h0 hok
    rw [heq]
  · intro hiso
    have hsan : (isoSanitize iso1).data.count '/' = 0 := by
      rw [List.count_eq_zero]
      intro hmem
      simp only [isoSanitize] at hmem
      obtain ⟨c, hc, hce⟩ := List.mem_map.mp hmem
      by_cases h1 : c = ':' ∨ c = '.'
      · simp [h1] at hce
      · simp [h1] at hce
        exact hiso (hce ▸ hc)
    simp [String.data_append, List.count_append, hsan]
    omega

theorem start_filepath_witness :
    mapLookup ([] : RecMap) "a/b" = none ∧
    (fun (_ : String) (_ : String) => ExtResult.ok (⟨"EG9"⟩ : EgressInfo)) "a/b"
      ("recordings/" ++ "a/b" ++ "/" ++ isoSanitize "2024-01-01T00:00:00.000Z" ++ ".ogg") =
      .ok ⟨"EG9"⟩ ∧
    ((startRecording (fun _ _ => .ok ⟨"EG9"⟩) [] "a/b" none
        "2024-01-01T00:00:00.000Z" "T2").1 =
      .ok "EG9"
        ("recordings/" ++ "a/b" ++ "/" ++ isoSanitize "2024-01-01T00:00:00.000Z" ++ ".ogg") ∧
     (('/' : Char) ∉ "2024-01-01T00:00:00.000Z".data →
       ("recordings/" ++ "a/b" ++ "/" ++
         isoSanitize "2024-01-01T00:00:00.000Z" ++ ".ogg").data.count '/' =
         2 + "a/b".data.count '/')) :=
  ⟨rfl, rfl, start_filepath (fun _ _ => .ok ⟨"EG9"⟩) [] "a/b" none
    "2024-01-01T00:00:00.000Z" "T2" ⟨"EG9"⟩ rfl rfl⟩
